import Mathlib

/-!
# createsend-go: the API client core (`createsend/createsend.go`)

A shallow embedding of `NewClient`, `Client.NewRequest` and `Client.Do`.

Go strings are byte sequences.  They are modelled as `List Char`, one
character per byte (every string constant of the program is ASCII).

The three functions of the package are thin glue over the Go standard
library.  The library calls they make are embedded next to them, each
under the name it has in Go: `fmt.Errorf` with the `%d` verb,
`json.Encoder.Encode`, `url.Parse`, `URL.ResolveReference`, `URL.String`,
`http.NewRequest`, `Header.Add`.  The transport (`http.Client.Do`) and the
JSON marshaller of a body are inputs of the model.
-/

namespace createsend

/-- A Go string: a sequence of bytes, one `Char` per byte. -/
abbrev GoString := List Char

/-! ## Errors -/

/-- A Go `error` value.  `errorString` is what `errors.New` and `fmt.Errorf`
build, named by its message; `quoted` is a `fmt.Errorf` value whose format has
one `%q` verb, kept as format and argument; `escapeError` and
`invalidHostError` are the two error types of `net/url`; `urlError` is
`*url.Error`, which wraps a cause; `foreign` is any error value that comes
from outside (a transport, a marshaller). -/
inductive Error where
  | errorString (msg : GoString)
  | quoted (format arg : GoString)
  | escapeError (s : GoString)
  | invalidHostError (s : GoString)
  | urlError (op url : GoString) (err : Error)
  | foreign (id : Nat)
deriving DecidableEq, Repr

/-- The method `Unwrap`: the cause an error carries, if any. -/
def Error.Unwrap : Error → Option Error
  | .urlError _ _ err => some err
  | _ => none

/-- The chain test of `errors.Is`: `target` is `err` or one of its causes. -/
def Error.Is : Error → Error → Bool
  | .urlError op url err, target =>
      decide (Error.urlError op url err = target) || err.Is target
  | err, target => decide (err = target)

/-! ## `fmt`: the `%d` verb -/

/-- The digit loop of `fmt.fmtInteger` in base 10: digits are written from the
least significant one, in front of what is already in the buffer. -/
def fmtDigits : Nat → Nat → GoString → GoString
  | 0, _, buf => buf
  | fuel + 1, u, buf =>
      if 10 ≤ u then fmtDigits fuel (u / 10) (Char.ofNat (48 + u % 10) :: buf)
      else Char.ofNat (48 + u) :: buf

/-- The verb `%d` on an `int`: a minus sign for a negative value, then the
decimal digits of its magnitude. -/
def fmtInteger : Int → GoString
  | .ofNat n => fmtDigits (n + 1) n []
  | .negSucc n => '-' :: fmtDigits (n + 2) (n + 1) []

/-! ## `strings`: the helpers the library code below uses -/

/-- The call `strings.Cut(s, sep)` for a one-byte separator: the text before
the first `sep`, the text after it, and whether `sep` was found. -/
def cut (sep : Char) : GoString → GoString × GoString × Bool
  | [] => ([], [], false)
  | c :: cs =>
      if c = sep then ([], cs, true)
      else (c :: (cut sep cs).1, (cut sep cs).2.1, (cut sep cs).2.2)

/-- The split of `s` at the last `sep`, as `strings.LastIndex(s, sep)` finds
it: the text before it and the text after it; `none` for index `-1`. -/
def cutLast (sep : Char) (s : GoString) : Option (GoString × GoString) :=
  if (cut sep s.reverse).2.2 then
    some ((cut sep s.reverse).2.1.reverse, (cut sep s.reverse).1.reverse)
  else none

/-- The call `strings.Split(s, "/")`. -/
def splitSlash : GoString → List GoString
  | [] => [[]]
  | c :: cs =>
      if c = '/' then [] :: splitSlash cs
      else match splitSlash cs with
        | [] => [[c]]
        | seg :: segs => (c :: seg) :: segs

/-- The call `strings.Index(s, "%25")`: the text before the first `%25` and the
text from it on. -/
def cutZone : GoString → Option (GoString × GoString)
  | [] => none
  | c :: cs =>
      if ['%', '2', '5'] <+: (c :: cs) then some ([], c :: cs)
      else (cutZone cs).map fun r => (c :: r.1, r.2)

/-- An ASCII letter. -/
def isLetter (c : Char) : Bool :=
  ('a' ≤ c && c ≤ 'z') || ('A' ≤ c && c ≤ 'Z')

/-- An ASCII digit. -/
def isDigit (c : Char) : Bool := '0' ≤ c && c ≤ '9'

/-- The call `strings.ToLower` on ASCII text. -/
def toLower (s : GoString) : GoString :=
  s.map fun c => if 'A' ≤ c ∧ c ≤ 'Z' then Char.ofNat (c.toNat + 32) else c

/-! ## `net/url` -/

namespace url

/-- The component a text is escaped for (`encoding` in `net/url`). -/
inductive encoding where
  | encodePath
  | encodePathSegment
  | encodeHost
  | encodeZone
  | encodeUserPassword
  | encodeQueryComponent
  | encodeFragment
deriving DecidableEq, Repr

open encoding

/-- User name and password of a URL (`url.Userinfo`). -/
structure Userinfo where
  username : GoString
  password : GoString
  passwordSet : Bool
deriving DecidableEq, Repr

/-- The struct `url.URL`. -/
structure URL where
  Scheme : GoString := []
  Opaque : GoString := []
  User : Option Userinfo := none
  Host : GoString := []
  Path : GoString := []
  RawPath : GoString := []
  OmitHost : Bool := false
  ForceQuery : Bool := false
  RawQuery : GoString := []
  Fragment : GoString := []
  RawFragment : GoString := []
deriving DecidableEq, Repr

/-- A hexadecimal digit (`ishex`). -/
def ishex (c : Char) : Bool :=
  ('0' ≤ c && c ≤ '9') || ('a' ≤ c && c ≤ 'f') || ('A' ≤ c && c ≤ 'F')

/-- The value of a hexadecimal digit (`unhex`). -/
def unhex (c : Char) : Nat :=
  if '0' ≤ c ∧ c ≤ '9' then c.toNat - 48
  else if 'a' ≤ c ∧ c ≤ 'f' then c.toNat - 97 + 10
  else if 'A' ≤ c ∧ c ≤ 'F' then c.toNat - 65 + 10
  else 0

/-- The digit of `upperhex` at index `n`. -/
def upperhex (n : Nat) : Char :=
  "0123456789ABCDEF".toList.getD n '0'

/-- Whether byte `c` must be percent-escaped in a component `mode`
(`shouldEscape`). -/
def shouldEscape (c : Char) (mode : encoding) : Bool :=
  if isLetter c || isDigit c then false
  else if (mode = encodeHost ∨ mode = encodeZone) ∧
      c ∈ ['!', '$', '&', '\'', '(', ')', '*', '+', ',', ';', '=', ':', '[', ']',
        '<', '>', '"'] then false
  else if c ∈ ['-', '_', '.', '~'] then false
  else if c ∈ ['$', '&', '+', ',', '/', ':', ';', '=', '?', '@'] then
    match mode with
    | encodePath => c = '?'
    | encodePathSegment => c = '/' || c = ';' || c = ',' || c = '?'
    | encodeUserPassword => c = '@' || c = '/' || c = '?' || c = ':'
    | encodeQueryComponent => true
    | encodeFragment => false
    | _ => true
  else if mode = encodeFragment ∧ c ∈ ['!', '(', ')', '*'] then false
  else true

/-- Percent-escaping of a text for a component (`escape`). -/
def escape (s : GoString) (mode : encoding) : GoString :=
  s.flatMap fun c =>
    if c = ' ' ∧ mode = encodeQueryComponent then ['+']
    else if shouldEscape c mode then
      ['%', upperhex (c.toNat / 16), upperhex (c.toNat % 16)]
    else [c]

/-- The first loop of `unescape`: the check that every `%` starts a
well-formed escape and, in a host, that no byte needs escaping. -/
def unescapeCheck (mode : encoding) : GoString → Option Error
  | [] => none
  | c :: rest =>
      if c = '%' then
        match rest with
        | a :: b :: rest2 =>
            if !ishex a || !ishex b then some (.escapeError [c, a, b])
            else if mode = encodeHost ∧ unhex a < 8 ∧ [a, b] ≠ ['2', '5'] then
              some (.escapeError [c, a, b])
            else if mode = encodeZone ∧ [a, b] ≠ ['2', '5'] ∧
                Char.ofNat (unhex a * 16 + unhex b) ≠ ' ' ∧
                shouldEscape (Char.ofNat (unhex a * 16 + unhex b)) encodeHost then
              some (.escapeError [c, a, b])
            else unescapeCheck mode rest2
        | _ => some (.escapeError (c :: rest))
      else if (mode = encodeHost ∨ mode = encodeZone) ∧ c.toNat < 128 ∧
          shouldEscape c encodeHost then
        some (.invalidHostError [c])
      else unescapeCheck mode rest

/-- The second loop of `unescape`: the decoding of a checked text. -/
def unescapeDecode (mode : encoding) : GoString → GoString
  | [] => []
  | c :: rest =>
      if c = '%' then
        match rest with
        | a :: b :: rest2 =>
            Char.ofNat (unhex a * 16 + unhex b) :: unescapeDecode mode rest2
        | _ => c :: rest
      else if c = '+' then
        (if mode = encodeQueryComponent then ' ' else '+') :: unescapeDecode mode rest
      else c :: unescapeDecode mode rest

/-- Percent-decoding of a text of a component (`unescape`). -/
def unescape (s : GoString) (mode : encoding) : Except Error GoString :=
  match unescapeCheck mode s with
  | some e => .error e
  | none => .ok (unescapeDecode mode s)

/-- Whether a text is a valid encoding of a component (`validEncoded`). -/
def validEncoded (s : GoString) (mode : encoding) : Bool :=
  s.all fun c =>
    if c ∈ ['!', '$', '&', '\'', '(', ')', '*', '+', ',', ';', '=', ':', '@'] then true
    else if c ∈ ['[', ']'] then true
    else if c = '%' then true
    else !shouldEscape c mode

/-- The method `setPath`: `Path` is the decoded text; `RawPath` keeps the text
only when it is not the default encoding of `Path`. -/
def URL.setPath (u : URL) (p : GoString) : Except Error URL :=
  match unescape p encodePath with
  | .error e => .error e
  | .ok path =>
      .ok { u with Path := path,
                   RawPath := if p = escape path encodePath then [] else p }

/-- The method `EscapedPath`. -/
def URL.EscapedPath (u : URL) : GoString :=
  let dflt := if u.Path = ['*'] then ['*'] else escape u.Path encodePath
  if u.RawPath ≠ [] ∧ validEncoded u.RawPath encodePath then
    match unescape u.RawPath encodePath with
    | .ok p => if p = u.Path then u.RawPath else dflt
    | .error _ => dflt
  else dflt

/-- The method `setFragment`. -/
def URL.setFragment (u : URL) (f : GoString) : Except Error URL :=
  match unescape f encodeFragment with
  | .error e => .error e
  | .ok frag =>
      .ok { u with Fragment := frag,
                   RawFragment := if f = escape frag encodeFragment then [] else f }

/-- The method `EscapedFragment`. -/
def URL.EscapedFragment (u : URL) : GoString :=
  if u.RawFragment ≠ [] ∧ validEncoded u.RawFragment encodeFragment then
    match unescape u.RawFragment encodeFragment with
    | .ok f => if f = u.Fragment then u.RawFragment else escape u.Fragment encodeFragment
    | .error _ => escape u.Fragment encodeFragment
  else escape u.Fragment encodeFragment

/-- The method `(*Userinfo).String`. -/
def Userinfo.String (ui : Userinfo) : GoString :=
  if ui.passwordSet then
    escape ui.username encodeUserPassword ++ ':' :: escape ui.password encodeUserPassword
  else escape ui.username encodeUserPassword

/-- Whether a text contains an ASCII control byte (`stringContainsCTLByte`). -/
def stringContainsCTLByte (s : GoString) : Bool :=
  s.any fun c => c.toNat < 32 || c.toNat = 127

/-- The loop of `getScheme` from the second byte on: the rest of the scheme
and what follows its colon, or `none` when no colon ends a scheme. -/
def getSchemeLoop : GoString → Option (GoString × GoString)
  | [] => none
  | c :: cs =>
      if isLetter c || isDigit c || c = '+' || c = '-' || c = '.' then
        (getSchemeLoop cs).map fun r => (c :: r.1, r.2)
      else if c = ':' then some ([], cs)
      else none

/-- The function `getScheme`: a leading `scheme:` is split off. -/
def getScheme (rawURL : GoString) : Except Error (GoString × GoString) :=
  match rawURL with
  | [] => .ok ([], rawURL)
  | c :: cs =>
      if isLetter c then
        match getSchemeLoop cs with
        | some r => .ok (c :: r.1, r.2)
        | none => .ok ([], rawURL)
      else if isDigit c || c = '+' || c = '-' || c = '.' then .ok ([], rawURL)
      else if c = ':' then .error (.errorString "missing protocol scheme".toList)
      else .ok ([], rawURL)

/-- The function `validOptionalPort`: empty, or a colon and digits. -/
def validOptionalPort (port : GoString) : Bool :=
  match port with
  | [] => true
  | c :: digits => c = ':' && digits.all isDigit

/-- The function `validUserinfo`. -/
def validUserinfo (s : GoString) : Bool :=
  s.all fun r =>
    isLetter r || isDigit r ||
      decide (r ∈ ['-', '.', '_', ':', '~', '!', '$', '&', '\'', '(', ')', '*', '+', ',',
        ';', '=', '%', '@'])

/-- The function `parseHost`. -/
def parseHost (host : GoString) : Except Error GoString :=
  let plain : Except Error GoString := unescape host encodeHost
  if host.head? = some '[' then
    match cutLast ']' host with
    | none => .error (.errorString "missing ']' in host".toList)
    | some (lit, colonPort) =>
        if !validOptionalPort colonPort then
          .error (.quoted "invalid port %q after host".toList colonPort)
        else
          match cutZone lit with
          | some (h1, h2) =>
              match unescape h1 encodeHost with
              | .error e => .error e
              | .ok host1 =>
                  match unescape h2 encodeZone with
                  | .error e => .error e
                  | .ok host2 =>
                      match unescape (']' :: colonPort) encodeHost with
                      | .error e => .error e
                      | .ok host3 => .ok (host1 ++ host2 ++ host3)
          | none => plain
  else
    match cutLast ':' host with
    | some (_, port) =>
        if !validOptionalPort (':' :: port) then
          .error (.quoted "invalid port %q after host".toList (':' :: port))
        else plain
    | none => plain

/-- The function `parseAuthority`: `[userinfo@]host`. -/
def parseAuthority (authority : GoString) : Except Error (Option Userinfo × GoString) :=
  match cutLast '@' authority with
  | none =>
      match parseHost authority with
      | .error e => .error e
      | .ok host => .ok (none, host)
  | some (userinfo, hostText) =>
      match parseHost hostText with
      | .error e => .error e
      | .ok host =>
          if !validUserinfo userinfo then
            .error (.errorString "net/url: invalid userinfo".toList)
          else if ':' ∉ userinfo then
            match unescape userinfo encodeUserPassword with
            | .error e => .error e
            | .ok name => .ok (some ⟨name, [], false⟩, host)
          else
            match unescape (cut ':' userinfo).1 encodeUserPassword with
            | .error e => .error e
            | .ok name =>
                match unescape (cut ':' userinfo).2.1 encodeUserPassword with
                | .error e => .error e
                | .ok pw => .ok (some ⟨name, pw, true⟩, host)

/-- The function `parse`: a URL without its fragment. -/
def parse (rawURL : GoString) (viaRequest : Bool) : Except Error URL :=
  if stringContainsCTLByte rawURL then
    .error (.errorString "net/url: invalid control character in URL".toList)
  else if rawURL = [] ∧ viaRequest then .error (.errorString "empty url".toList)
  else if rawURL = ['*'] then .ok { Path := ['*'] }
  else
    match getScheme rawURL with
    | .error e => .error e
    | .ok (scheme, rest0) =>
        let url0 : URL := { Scheme := toLower scheme }
        let forced : Bool := rest0.getLast? = some '?' && rest0.count '?' = 1
        let rest : GoString := if forced then rest0.dropLast else (cut '?' rest0).1
        let url1 : URL :=
          if forced then { url0 with ForceQuery := true }
          else { url0 with RawQuery := (cut '?' rest0).2.1 }
        if rest.head? ≠ some '/' ∧ url1.Scheme ≠ [] then .ok { url1 with Opaque := rest }
        else if rest.head? ≠ some '/' ∧ viaRequest then
          .error (.errorString "invalid URI for request".toList)
        else if rest.head? ≠ some '/' ∧ ':' ∈ (cut '/' rest).1 then
          .error (.errorString "first path segment in URL cannot contain colon".toList)
        else if (url1.Scheme ≠ [] ∨ (!viaRequest ∧ ¬ ['/', '/', '/'] <+: rest)) ∧
            ['/', '/'] <+: rest then
          let tail := rest.drop 2
          let authority := if (cut '/' tail).2.2 then (cut '/' tail).1 else tail
          let rest2 := if (cut '/' tail).2.2 then '/' :: (cut '/' tail).2.1 else []
          match parseAuthority authority with
          | .error e => .error e
          | .ok (user, host) => ({ url1 with User := user, Host := host } : URL).setPath rest2
        else if url1.Scheme ≠ [] ∧ rest.head? = some '/' then
          ({ url1 with OmitHost := true } : URL).setPath rest
        else url1.setPath rest

/-- The function `url.Parse`: the fragment is cut off and set last; an error
is reported as a `*url.Error`. -/
def Parse (rawURL : GoString) : Except Error URL :=
  match parse (cut '#' rawURL).1 false with
  | .error e => .error (.urlError "parse".toList (cut '#' rawURL).1 e)
  | .ok url =>
      if (cut '#' rawURL).2.1 = [] then .ok url
      else
        match url.setFragment (cut '#' rawURL).2.1 with
        | .error e => .error (.urlError "parse".toList rawURL e)
        | .ok url2 => .ok url2

/-- The method `(*URL).String`: the URL put together again. -/
def URL.String (u : URL) : GoString :=
  let buf0 : GoString := if u.Scheme ≠ [] then u.Scheme ++ [':'] else []
  let buf1 : GoString :=
    if u.Opaque ≠ [] then buf0 ++ u.Opaque
    else
      let bufA : GoString :=
        if u.Scheme ≠ [] ∨ u.Host ≠ [] ∨ u.User ≠ none then
          if u.OmitHost ∧ u.Host = [] ∧ u.User = none then buf0
          else
            buf0 ++ (if u.Host ≠ [] ∨ u.Path ≠ [] ∨ u.User ≠ none then ['/', '/'] else [])
              ++ (match u.User with
                  | some ui => ui.String ++ ['@']
                  | none => [])
              ++ (if u.Host ≠ [] then escape u.Host encodeHost else [])
        else buf0
      let path := u.EscapedPath
      let bufB : GoString :=
        if path ≠ [] ∧ path.head? ≠ some '/' ∧ u.Host ≠ [] then bufA ++ ['/'] else bufA
      let bufC : GoString :=
        if bufB = [] ∧ ':' ∈ (cut '/' path).1 then bufB ++ ['.', '/'] else bufB
      bufC ++ path
  let buf2 : GoString :=
    if u.ForceQuery ∨ u.RawQuery ≠ [] then buf1 ++ '?' :: u.RawQuery else buf1
  if u.Fragment ≠ [] then buf2 ++ '#' :: u.EscapedFragment else buf2

/-- The state of the loop of `resolvePath`: the text built so far and whether
the next element is written without a slash in front. -/
structure PathBuilder where
  dst : GoString
  first : Bool
deriving DecidableEq, Repr

/-- One turn of the loop of `resolvePath` on path element `elem`. -/
def resolveStep (st : PathBuilder) (elem : GoString) : PathBuilder :=
  if elem = ['.'] then { st with first := false }
  else if elem = ['.', '.'] then
    match cutLast '/' (st.dst.drop 1) with
    | none => { dst := ['/'], first := true }
    | some (before, _) => { st with dst := '/' :: before }
  else
    { dst := (if st.first then st.dst else st.dst ++ ['/']) ++ elem, first := false }

/-- The first part of `resolvePath`: the path `full`, which is the base path
for an empty reference, the reference put after the last slash of the base
for a reference that does not start with a slash, and the reference
otherwise. -/
def resolveFull (base ref : GoString) : GoString :=
  if ref = [] then base
  else if ref.head? ≠ some '/' then
    (match cutLast '/' base with
      | some (dir, _) => dir ++ ['/']
      | none => []) ++ ref
  else ref

/-- The end of `resolvePath`: a slash is added after a last element `.` or
`..`, and of two slashes at the start one is dropped. -/
def resolveEnd (elems : List GoString) (st : PathBuilder) : GoString :=
  let r : GoString :=
    if elems.getLast? = some ['.'] ∨ elems.getLast? = some ['.', '.'] then st.dst ++ ['/']
    else st.dst
  if 1 < r.length ∧ (r.drop 1).head? = some '/' then r.drop 1 else r

/-- The function `resolvePath`: the reference path is merged with the base
path and the elements `.` and `..` are applied. -/
def resolvePath (base ref : GoString) : GoString :=
  let full := resolveFull base ref
  if full = [] then []
  else
    resolveEnd (splitSlash full)
      ((splitSlash full).foldl resolveStep { dst := ['/'], first := true })

/-- A call of `setPath` whose error is dropped, as `ResolveReference` makes
it: on an error the URL stays as it is. -/
def URL.setPathOrKeep (u : URL) (p : GoString) : URL :=
  match u.setPath p with
  | .ok u2 => u2
  | .error _ => u

/-- The method `(*URL).ResolveReference` on a base `u` that may be the nil
pointer; `none` is the panic of reading a field of nil. -/
def ResolveReference (u : Option URL) (ref : URL) : Option URL :=
  if ref.Scheme ≠ [] then
    some (ref.setPathOrKeep (resolvePath ref.EscapedPath []))
  else
    match u with
    | none => none
    | some u =>
        let url : URL := { ref with Scheme := u.Scheme }
        if ref.Host ≠ [] ∨ ref.User ≠ none then
          some (url.setPathOrKeep (resolvePath ref.EscapedPath []))
        else if ref.Opaque ≠ [] then
          some { url with User := none, Host := [], Path := [] }
        else
          let url2 : URL :=
            if ref.Path = [] ∧ ref.ForceQuery = false ∧ ref.RawQuery = [] then
              if ref.Fragment = [] then
                { url with RawQuery := u.RawQuery, Fragment := u.Fragment,
                           RawFragment := u.RawFragment }
              else { url with RawQuery := u.RawQuery }
            else url
          if ref.Path = [] ∧ u.Opaque ≠ [] then
            some { url2 with Opaque := u.Opaque, User := none, Host := [], Path := [] }
          else
            some (({ url2 with Host := u.Host, User := u.User } : URL).setPathOrKeep
              (resolvePath u.EscapedPath ref.EscapedPath))

end url

/-! ## `encoding/json` -/

namespace json

/-- The method `(*Encoder).Encode` writing into the buffer `buf`: the JSON
encoding of `v`, as `marshal` gives it, is followed by a newline byte; nothing
is written when `marshal` fails. -/
def Encode {β : Type} (marshal : β → Except Error GoString) (buf : GoString) (v : β) :
    Except Error GoString :=
  match marshal v with
  | .error e => .error e
  | .ok b => .ok (buf ++ (b ++ ['\n']))

/-- A few kinds of Go values a body can be: the nil pointer, a bool, an int, a
slice, and a channel, which JSON does not support. -/
inductive Value where
  | null
  | bool (b : Bool)
  | int (i : Int)
  | array (elems : List Value)
  | chan
deriving Repr

mutual
/-- The JSON encoding of a value (`json.Marshal`) on the kinds of `Value`. -/
def Marshal : Value → Except Error GoString
  | .null => .ok "null".toList
  | .bool true => .ok "true".toList
  | .bool false => .ok "false".toList
  | .int i => .ok (fmtInteger i)
  | .array elems =>
      match marshalElems elems with
      | .error e => .error e
      | .ok b => .ok ('[' :: b ++ [']'])
  | .chan => .error (.errorString "json: unsupported type: chan int".toList)
/-- The elements of a slice, separated by commas. -/
def marshalElems : List Value → Except Error GoString
  | [] => .ok []
  | [v] => Marshal v
  | v :: w :: rest =>
      match Marshal v with
      | .error e => .error e
      | .ok b =>
          match marshalElems (w :: rest) with
          | .error e => .error e
          | .ok bs => .ok (b ++ ',' :: bs)
end

end json

/-! ## `net/http` -/

namespace http

/-- The map `http.Header`: keys with their values, in the order of arrival. -/
abbrev Header := List (GoString × List GoString)

/-- A byte a header key may contain (`validHeaderFieldByte`): a token byte. -/
def validHeaderFieldByte (c : Char) : Bool :=
  isLetter c || isDigit c ||
    decide (c ∈ ['!', '#', '$', '%', '&', '\'', '*', '+', '-', '.', '^', '_', Char.ofNat 96,
      '|', '~'])

/-- The loop of `canonicalMIMEHeaderKey`: a letter is upper case at the start
and after a dash, lower case elsewhere. -/
def canonicalLoop : Bool → GoString → GoString
  | _, [] => []
  | upper, c :: cs =>
      let c2 : Char :=
        if upper ∧ 'a' ≤ c ∧ c ≤ 'z' then Char.ofNat (c.toNat - 32)
        else if !upper ∧ 'A' ≤ c ∧ c ≤ 'Z' then Char.ofNat (c.toNat + 32)
        else c
      c2 :: canonicalLoop (c2 = '-') cs

/-- The function `textproto.CanonicalMIMEHeaderKey`: a key with a byte that
is not a token byte is left as it is. -/
def CanonicalMIMEHeaderKey (s : GoString) : GoString :=
  if s.all validHeaderFieldByte then canonicalLoop true s else s

/-- The method `Header.Values` for a key in canonical form. -/
def Header.Values (h : Header) (key : GoString) : List GoString :=
  match h with
  | [] => []
  | (k, vs) :: rest => if k = key then vs else Header.Values rest key

/-- The update `h[key] = append(h[key], value)`. -/
def Header.append (h : Header) (key value : GoString) : Header :=
  match h with
  | [] => [(key, [value])]
  | (k, vs) :: rest =>
      if k = key then (k, vs ++ [value]) :: rest
      else (k, vs) :: Header.append rest key value

/-- The method `Header.Add`. -/
def Header.Add (h : Header) (key value : GoString) : Header :=
  Header.append h (CanonicalMIMEHeaderKey key) value

/-- The fields of `http.Request` that `NewRequest` sets: `Body` is the content
of the buffer the request reads from. -/
structure Request where
  Method : GoString
  URL : url.URL
  Header : Header
  Body : GoString
  ContentLength : Nat
  Host : GoString
deriving DecidableEq, Repr

/-- The function `validMethod`: a non-empty token. -/
def validMethod (method : GoString) : Bool :=
  method ≠ [] && method.all validHeaderFieldByte

/-- The function `removeEmptyPort`: a host that ends in a colon after its last
`]` loses the colon. -/
def removeEmptyPort (host : GoString) : GoString :=
  match cutLast ':' host with
  | some (before, after) =>
      if ']' ∉ after then (if after = [] then before else host) else host
  | none => host

/-- The function `http.NewRequest` with a `*bytes.Buffer` holding `body`. -/
def NewRequest (method urlStr : GoString) (body : GoString) : Except Error Request :=
  let method := if method = [] then "GET".toList else method
  if !validMethod method then
    .error (.quoted "net/http: invalid method %q".toList method)
  else
    match url.Parse urlStr with
    | .error e => .error e
    | .ok u =>
        .ok { Method := method,
              URL := { u with Host := removeEmptyPort u.Host },
              Header := [],
              Body := body,
              ContentLength := body.length,
              Host := removeEmptyPort u.Host }

/-- The body of a response as a transport double sees it: it counts the calls
of `Close`. -/
structure Body where
  closeCount : Nat
deriving DecidableEq, Repr

/-- The method `resp.Body.Close()`. -/
def Body.Close (b : Body) : Body := { closeCount := b.closeCount + 1 }

/-- The fields of `http.Response` that `Do` touches. -/
structure Response where
  StatusCode : Int
  Body : Body
deriving DecidableEq, Repr

/-- What `(*http.Client).Do` hands back: a response and a nil error, or an
error (with it a response only when `CheckRedirect` failed). -/
inductive RoundTrip where
  | response (resp : Response)
  | failure (resp : Option Response) (err : Error)
deriving DecidableEq, Repr

/-- The type `http.Client` as the package uses it: its method `Do`. -/
structure Client where
  Do : Request → RoundTrip

end http

/-! ## The package `createsend` -/

/-- The constant `libraryVersion`. -/
def libraryVersion : GoString := "0.0.1".toList

/-- The constant `userAgent`. -/
def userAgent : GoString := "createsend-go/".toList ++ libraryVersion

/-- The constant `defaultBaseURL`. -/
def defaultBaseURL : GoString := "https://api.createsend.com/api/v3/".toList

/-- The struct `Client`: the HTTP client, the base URL (a pointer, `none` when
nil) and the user agent. -/
structure Client where
  client : http.Client
  BaseURL : Option url.URL
  UserAgent : GoString

/-- What a call gives: it returns a value or it panics. -/
inductive Outcome (α : Type) where
  | returned (a : α)
  | panicked
deriving Repr

/-- The function `NewClient`; `DefaultClient` is `http.DefaultClient`.  The
error of `url.Parse` is dropped: on an error the base URL would be nil. -/
def NewClient (DefaultClient : http.Client) (httpClient : Option http.Client) : Client :=
  let httpClient := match httpClient with
    | none => DefaultClient
    | some hc => hc
  let baseURL := match url.Parse defaultBaseURL with
    | .ok u => some u
    | .error _ => none
  { client := httpClient, BaseURL := baseURL, UserAgent := userAgent }

/-- The method `(*Client).NewRequest`.  `body` is `none` for a nil body;
`marshal` is the JSON encoding of body values.  The result is the pair
`(req, err)` the Go function returns. -/
def Client.NewRequest {β : Type} (marshal : β → Except Error GoString) (c : Client)
    (method urlStr : GoString) (body : Option β) :
    Outcome (Option http.Request × Option Error) :=
  match url.Parse urlStr with
  | .error err => .returned (none, some err)
  | .ok rel =>
      match url.ResolveReference c.BaseURL rel with
      | none => .panicked
      | some u =>
          let encoded : Except Error GoString :=
            match body with
            | some b => json.Encode marshal [] b
            | none => .ok []
          match encoded with
          | .error err => .returned (none, some err)
          | .ok buf =>
              match http.NewRequest method u.String buf with
              | .error err => .returned (none, some err)
              | .ok req =>
                  .returned
                    (some { req with Header := req.Header.Add "User-Agent".toList c.UserAgent },
                      none)

/-- The method `(*Client).Do`: the error it returns (`none` for nil) and the
response the transport gave, as it is when `Do` has returned. -/
def Client.Do (c : Client) (req : http.Request) : Option Error × Option http.Response :=
  match c.client.Do req with
  | .failure resp err => (some err, resp)
  | .response resp =>
      let closed : http.Response := { resp with Body := resp.Body.Close }
      if resp.StatusCode < 200 ∨ resp.StatusCode ≥ 300 then
        (some (.errorString ("http response status code ".toList ++ fmtInteger resp.StatusCode)),
          some closed)
      else (none, some closed)

/-! ## Reading a decimal text back, and the doubles used in the examples -/

/-- The number a text of decimal digits stands for. -/
def readDigits (s : GoString) : Nat :=
  s.foldl (fun a c => 10 * a + (c.toNat - 48)) 0

/-- The integer a decimal text with an optional minus sign stands for. -/
def readInt (s : GoString) : Int :=
  if s.head? = some '-' then -(readDigits s.tail : Int) else (readDigits s : Int)

/-- The number of `Close` calls a transport double has counted once `Do` has
returned: the counter of the body of the response it handed out, and zero
when it handed out no response. -/
def closeCalls (resp : Option http.Response) : Nat :=
  match resp with
  | some r => r.Body.closeCount
  | none => 0

/-- A transport double that answers every request with status `status` and a
body that has not been closed. -/
def respondingTransport (status : Int) : http.Client :=
  { Do := fun _ => .response { StatusCode := status, Body := { closeCount := 0 } } }

/-- A transport double that fails every request with `err` and no response. -/
def failingTransport (err : Error) : http.Client :=
  { Do := fun _ => .failure none err }

/-- A request to send through a double. -/
def sampleRequest : http.Request :=
  { Method := "GET".toList, URL := {}, Header := [], Body := [], ContentLength := 0, Host := [] }

/-- A client over a double that answers with status `status`. -/
def respondingClient (status : Int) : Client :=
  { client := respondingTransport status, BaseURL := none, UserAgent := userAgent }

/-- A client over a double that fails with `err`. -/
def failingClient (err : Error) : Client :=
  { client := failingTransport err, BaseURL := none, UserAgent := userAgent }

/-- The base URL of the example in the specification,
`https://api.example.com/api/v3/`. -/
def exampleBase : url.URL :=
  { Scheme := "https".toList, Host := "api.example.com".toList, Path := "/api/v3/".toList }

/-- The client of the example in the specification. -/
def exampleClient : Client :=
  { client := respondingTransport 200, BaseURL := some exampleBase, UserAgent := userAgent }

/-- The URL of the request of the example in the specification. -/
def exampleURL : url.URL :=
  { Scheme := "https".toList, Host := "api.example.com".toList,
    Path := "/api/v3/clients.json".toList }

/-- The request of the example in the specification, with method `method` and
the payload `body`. -/
def exampleRequest (method body : GoString) : http.Request :=
  { Method := method,
    URL := exampleURL,
    Header := [("User-Agent".toList, ["createsend-go/0.0.1".toList])],
    Body := body,
    ContentLength := body.length,
    Host := "api.example.com".toList }

/-! ## Plain paths, hosts and schemes -/

/-- The base URL `NewClient` sets, `https://api.createsend.com/api/v3/`. -/
def defaultBase : url.URL :=
  { Scheme := "https".toList, Host := "api.createsend.com".toList, Path := "/api/v3/".toList }

theorem digitChar_eq (d : Nat) (h : d < 10) : Nat.digitChar d = Char.ofNat (48 + d) := by
  interval_cases d <;> rfl

theorem fmtDigits_eq_toDigitsCore (fuel : Nat) : ∀ (u : Nat) (buf : GoString),
    fmtDigits fuel u buf = Nat.toDigitsCore 10 fuel u buf := by
  induction fuel with
  | zero => intro u buf; rfl
  | succ fuel ih =>
    intro u buf
    simp only [fmtDigits, Nat.toDigitsCore]
    by_cases h : 10 ≤ u
    · have h2 : ¬ (u / 10 = 0) := by omega
      rw [if_pos h, if_neg h2, ih, digitChar_eq _ (Nat.mod_lt _ (by decide))]
    · have h2 : u / 10 = 0 := by omega
      have h3 : u % 10 = u := by omega
      rw [if_neg h, if_pos h2, digitChar_eq _ (Nat.mod_lt _ (by decide)), h3]

/-- The verb `%d` renders an integer as Lean renders it in decimal. -/
theorem fmtInteger_eq_toString (i : Int) : fmtInteger i = (toString i).toList := by
  cases i with
  | ofNat n =>
    show fmtDigits (n + 1) n [] = _
    rw [fmtDigits_eq_toDigitsCore]; rfl
  | negSucc n =>
    show '-' :: fmtDigits (n + 2) (n + 1) [] = _
    rw [fmtDigits_eq_toDigitsCore]; rfl

theorem digit_toNat (d : Nat) (h : d < 10) : (Char.ofNat (48 + d)).toNat - 48 = d := by
  interval_cases d <;> rfl

theorem digit_ne_minus (d : Nat) (h : d < 10) : Char.ofNat (48 + d) ≠ '-' := by
  interval_cases d <;> decide

theorem fmtDigits_append (fuel : Nat) : ∀ (u : Nat) (buf : GoString),
    fmtDigits fuel u buf = fmtDigits fuel u [] ++ buf := by
  induction fuel with
  | zero => intro u buf; rfl
  | succ fuel ih =>
    intro u buf
    simp only [fmtDigits]
    split
    · rw [ih, ih (u / 10) [_]]; simp
    · rfl

theorem readDigits_snoc (s : GoString) (c : Char) :
    readDigits (s ++ [c]) = 10 * readDigits s + (c.toNat - 48) := by
  simp [readDigits, List.foldl_append]

theorem readDigits_fmtDigits (fuel : Nat) : ∀ u : Nat, u < fuel →
    readDigits (fmtDigits fuel u []) = u := by
  induction fuel with
  | zero => intro u h; omega
  | succ fuel ih =>
    intro u h
    simp only [fmtDigits]
    split
    · rw [fmtDigits_append, readDigits_snoc, ih (u / 10) (by omega),
        digit_toNat _ (Nat.mod_lt _ (by decide))]
      omega
    · have hu : u < 10 := by omega
      simp [readDigits, digit_toNat u hu]

theorem fmtDigits_no_minus (fuel : Nat) : ∀ (u : Nat) (buf : GoString),
    (∀ c ∈ buf, c ≠ '-') → ∀ c ∈ fmtDigits fuel u buf, c ≠ '-' := by
  induction fuel with
  | zero => intro u buf h; exact h
  | succ fuel ih =>
    intro u buf h
    simp only [fmtDigits]
    split
    · apply ih
      intro c hc
      rcases List.mem_cons.mp hc with rfl | hc
      · exact digit_ne_minus _ (Nat.mod_lt _ (by decide))
      · exact h c hc
    · intro c hc
      rcases List.mem_cons.mp hc with rfl | hc
      · exact digit_ne_minus _ (by omega)
      · exact h c hc

/-- Reading back what `%d` wrote gives the integer. -/
theorem readInt_fmtInteger (i : Int) : readInt (fmtInteger i) = i := by
  cases i with
  | ofNat n =>
    have hne : (fmtDigits (n + 1) n []).head? ≠ some '-' := by
      intro hh
      exact fmtDigits_no_minus (n + 1) n [] (by simp) '-' (List.mem_of_mem_head? hh) rfl
    show readInt (fmtDigits (n + 1) n []) = _
    rw [readInt, if_neg hne, readDigits_fmtDigits _ _ (by omega)]
    rfl
  | negSucc n =>
    show readInt ('-' :: fmtDigits (n + 2) (n + 1) []) = _
    simp only [readInt, List.head?_cons, List.tail_cons, if_true]
    rw [readDigits_fmtDigits _ _ (by omega)]
    rfl

theorem fmtInteger_injective : Function.Injective fmtInteger := by
  intro a b h
  rw [← readInt_fmtInteger a, ← readInt_fmtInteger b, h]

/-! ## `Client.Do` -/

/-- C1: when the transport returns a response, `Do` returns no error if and
only if the status code `s` of the response satisfies `200 ≤ s < 300`. -/
theorem Do_no_error_iff (c : Client) (req : http.Request) (resp : http.Response)
    (h : c.client.Do req = .response resp) :
    (c.Do req).1 = none ↔ 200 ≤ resp.StatusCode ∧ resp.StatusCode < 300 := by
  unfold Client.Do
  rw [h]
  by_cases hs : resp.StatusCode < 200 ∨ resp.StatusCode ≥ 300
  · simp only [if_pos hs]
    constructor
    · intro k; cases k
    · intro k; omega
  · simp only [if_neg hs]
    constructor
    · intro _; omega
    · intro _; trivial

/-- C1, an instance: status 201 gives no error. -/
theorem Do_no_error_iff_witness :
    (respondingClient 201).client.Do
        sampleRequest = .response { StatusCode := 201, Body := { closeCount := 0 } } ∧
    (((respondingClient 201).Do
        sampleRequest).1 = none ↔ (200 : Int) ≤ 201 ∧ (201 : Int) < 300) :=
  ⟨rfl, Do_no_error_iff _ sampleRequest { StatusCode := 201, Body := { closeCount := 0 } } rfl⟩

/-- C2: when the transport returns a response whose status code `s` is outside
`[200, 300)`, the error of `Do` is the `fmt.Errorf` value with the message
`http response status code ` followed by `s` in decimal, and a response with
another status code outside `[200, 300)` gives a different error. -/
theorem Do_status_error (c : Client) (req : http.Request) (resp : http.Response)
    (h : c.client.Do req = .response resp)
    (hs : resp.StatusCode < 200 ∨ 300 ≤ resp.StatusCode) :
    (c.Do req).1 = some (.errorString
        ("http response status code ".toList ++ (toString resp.StatusCode).toList)) ∧
    ∀ (c2 : Client) (req2 : http.Request) (resp2 : http.Response),
      c2.client.Do req2 = .response resp2 →
      (resp2.StatusCode < 200 ∨ 300 ≤ resp2.StatusCode) →
      resp2.StatusCode ≠ resp.StatusCode → (c2.Do req2).1 ≠ (c.Do req).1 := by
  have key : ∀ (c : Client) (req : http.Request) (resp : http.Response),
      c.client.Do req = .response resp →
      (resp.StatusCode < 200 ∨ 300 ≤ resp.StatusCode) →
      (c.Do req).1 = some (.errorString
        ("http response status code ".toList ++ fmtInteger resp.StatusCode)) := by
    intro c req resp h hs
    unfold Client.Do
    rw [h]
    have hs2 : resp.StatusCode < 200 ∨ resp.StatusCode ≥ 300 := hs
    simp only [if_pos hs2]
  refine ⟨by rw [key c req resp h hs, fmtInteger_eq_toString], ?_⟩
  intro c2 req2 resp2 h2 hs2 hne heq
  rw [key c req resp h hs, key c2 req2 resp2 h2 hs2] at heq
  have h3 := List.append_cancel_left (Error.errorString.inj (Option.some.inj heq))
  exact hne (fmtInteger_injective h3)

/-- C2, an instance: status 404 gives the message that ends in `404`. -/
theorem Do_status_error_witness :
    ((respondingClient 404).Do
        sampleRequest).1 = some (.errorString "http response status code 404".toList) :=
  (Do_status_error (respondingClient 404)
    sampleRequest { StatusCode := 404, Body := { closeCount := 0 } } rfl (by decide)).1

/-- C6: when the transport fails with the error `e`, `Do` returns `e` itself,
so the error it returns has `e` in its chain, whatever response came with the
failure: no status code is looked at and no body is closed. -/
theorem Do_transport_failure (c : Client) (req : http.Request) (r : Option http.Response)
    (e : Error) (h : c.client.Do req = .failure r e) :
    c.Do req = (some e, r) ∧ e.Is e = true := by
  refine ⟨by unfold Client.Do; rw [h], ?_⟩
  cases e <;> simp [Error.Is]

/-- C6, an instance: a refused connection comes back as it is. -/
theorem Do_transport_failure_witness :
    (failingClient (.foreign 111)).Do sampleRequest = (some (.foreign 111), none) ∧
      (Error.foreign 111).Is (.foreign 111) = true :=
  Do_transport_failure _ sampleRequest none (.foreign 111) rfl

/-- C7, as stated, fails: a transport double that fails without a response
has counted no `Close` call when `Do` has returned. -/
theorem Do_close_count_counterexample :
    closeCalls ((failingClient (.foreign 111)).Do sampleRequest).2 ≠ 1 := by
  decide

/-- C7, amended: when the transport returns a response, `Do` has called
`Close` on its body exactly once when it returns, whatever the status code;
when the transport fails, `Do` calls `Close` on nothing. -/
theorem Do_closes_response_once (c : Client) (req : http.Request) :
    (∀ resp, c.client.Do req = .response resp →
      (c.Do req).2 = some { resp with Body := { closeCount := resp.Body.closeCount + 1 } }) ∧
    (∀ r e, c.client.Do req = .failure r e → (c.Do req).2 = r) := by
  constructor
  · intro resp h
    unfold Client.Do
    rw [h]
    by_cases hs : resp.StatusCode < 200 ∨ resp.StatusCode ≥ 300
    · simp only [if_pos hs]; rfl
    · simp only [if_neg hs]; rfl
  · intro r e h
    unfold Client.Do
    rw [h]

/-- C7 amended, instances: one `Close` call after a 404 and after a 200, none
after a transport failure. -/
theorem Do_closes_response_once_witness :
    closeCalls ((respondingClient 404).Do sampleRequest).2 = 1 ∧
      closeCalls ((respondingClient 200).Do sampleRequest).2 = 1 ∧
      closeCalls ((failingClient (.foreign 111)).Do sampleRequest).2 = 0 := by
  refine ⟨?_, ?_, ?_⟩
  · rw [(Do_closes_response_once (respondingClient 404) sampleRequest).1 _ rfl]; rfl
  · rw [(Do_closes_response_once (respondingClient 200) sampleRequest).1 _ rfl]; rfl
  · rw [(Do_closes_response_once (failingClient (.foreign 111)) sampleRequest).2 none
      (.foreign 111) rfl]; rfl

/-! ## `NewClient` -/

/-- C9: `NewClient` returns, for every argument, a client whose `BaseURL` is
non-nil and is the parsed form of `https://api.createsend.com/api/v3/` (scheme
`https`, host `api.createsend.com`, path `/api/v3/`, an absolute URL that is
written back as the same text, and that `url.Parse` gave without an error),
whose `UserAgent` is `createsend-go/0.0.1`,
and whose HTTP client is the one supplied, or the default one for nil. -/
theorem NewClient_fields (DefaultClient : http.Client) (httpClient : Option http.Client) :
    (NewClient DefaultClient httpClient).BaseURL =
        some { Scheme := "https".toList, Host := "api.createsend.com".toList,
               Path := "/api/v3/".toList } ∧
      (NewClient DefaultClient httpClient).BaseURL.map url.URL.String =
        some "https://api.createsend.com/api/v3/".toList ∧
      (NewClient DefaultClient httpClient).BaseURL.map url.URL.String =
        some defaultBaseURL ∧
      url.Parse defaultBaseURL = .ok defaultBase ∧
      (NewClient DefaultClient httpClient).UserAgent = "createsend-go/0.0.1".toList ∧
      (NewClient DefaultClient httpClient).client =
        (match httpClient with
          | some hc => hc
          | none => DefaultClient) := by
  refine ⟨rfl, rfl, rfl, rfl, rfl, ?_⟩
  cases httpClient <;> rfl

/-! ## `Client.NewRequest` -/

/-- What a request `http.NewRequest` has built looks like. -/
theorem http_NewRequest_ok (method urlStr body : GoString) (req : http.Request)
    (h : http.NewRequest method urlStr body = .ok req) :
    ∃ u, url.Parse urlStr = .ok u ∧
      http.validMethod (if method = [] then "GET".toList else method) = true ∧
      req = { Method := if method = [] then "GET".toList else method,
              URL := { u with Host := http.removeEmptyPort u.Host },
              Header := [],
              Body := body,
              ContentLength := body.length,
              Host := http.removeEmptyPort u.Host } := by
  unfold http.NewRequest at h
  dsimp only at h
  generalize (if method = [] then "GET".toList else method) = m at h ⊢
  cases hv : http.validMethod m with
  | false => simp [hv] at h
  | true =>
    cases hp : url.Parse urlStr with
    | error e => simp [hv, hp] at h
    | ok u =>
      refine ⟨u, rfl, rfl, ?_⟩
      simp only [hv, hp, Bool.not_true, Bool.false_eq_true, if_false, Except.ok.injEq] at h
      exact h.symm

/-- The steps of `NewRequest`, one after the other. -/
theorem NewRequest_steps {β : Type} (marshal : β → Except Error GoString) (c : Client)
    (method p : GoString) (body : Option β) :
    (∀ e, url.Parse p = .error e →
      c.NewRequest marshal method p body = .returned (none, some e)) ∧
    (∀ rel, url.Parse p = .ok rel → url.ResolveReference c.BaseURL rel = none →
      c.NewRequest marshal method p body = .panicked) ∧
    (∀ rel u b e, url.Parse p = .ok rel → url.ResolveReference c.BaseURL rel = some u →
      body = some b → marshal b = .error e →
      c.NewRequest marshal method p body = .returned (none, some e)) ∧
    (∀ rel u buf, url.Parse p = .ok rel → url.ResolveReference c.BaseURL rel = some u →
      ((body = none ∧ buf = []) ∨ (∃ b enc, body = some b ∧ marshal b = .ok enc ∧
        buf = enc ++ ['\n'])) →
      c.NewRequest marshal method p body =
        match http.NewRequest method u.String buf with
        | .error e => .returned (none, some e)
        | .ok req =>
            .returned (some { req with Header := [("User-Agent".toList, [c.UserAgent])] },
              none)) := by
  refine ⟨?_, ?_, ?_, ?_⟩
  · intro e he
    unfold Client.NewRequest
    rw [he]
  · intro rel hrel hu
    unfold Client.NewRequest
    rw [hrel]
    simp only [hu]
  · intro rel u b e hrel hu hbody hm
    unfold Client.NewRequest
    rw [hrel]
    simp only [hu, hbody, json.Encode, hm]
  · intro rel u buf hrel hu hbuf
    unfold Client.NewRequest
    rw [hrel]
    simp only [hu]
    rcases hbuf with ⟨hn, rfl⟩ | ⟨b, enc, hs, hm, rfl⟩
    · subst hn
      dsimp only
      cases hq : http.NewRequest method u.String [] with
      | error e => rfl
      | ok req =>
        obtain ⟨u2, _, _, rfl⟩ := http_NewRequest_ok _ _ _ _ hq
        rfl
    · subst hs
      simp only [json.Encode, hm, List.nil_append]
      cases hq : http.NewRequest method u.String (enc ++ ['\n']) with
      | error e => rfl
      | ok req =>
        obtain ⟨u2, _, _, rfl⟩ := http_NewRequest_ok _ _ _ _ hq
        rfl

/-- A request that `NewRequest` has built: where each of its parts comes from. -/
theorem NewRequest_built {β : Type} (marshal : β → Except Error GoString) (c : Client)
    (method p : GoString) (body : Option β) (req : http.Request) (err : Option Error)
    (h : c.NewRequest marshal method p body = .returned (some req, err)) :
    ∃ rel u buf req0, url.Parse p = .ok rel ∧ url.ResolveReference c.BaseURL rel = some u ∧
      ((body = none ∧ buf = []) ∨ (∃ b enc, body = some b ∧ marshal b = .ok enc ∧
        buf = enc ++ ['\n'])) ∧
      http.NewRequest method u.String buf = .ok req0 ∧
      req = { req0 with Header := [("User-Agent".toList, [c.UserAgent])] } ∧ err = none := by
  obtain ⟨s1, s2, s3, s4⟩ := NewRequest_steps marshal c method p body
  cases hp : url.Parse p with
  | error e => rw [s1 e hp] at h; cases h
  | ok rel =>
    cases hu : url.ResolveReference c.BaseURL rel with
    | none => rw [s2 rel hp hu] at h; cases h
    | some u =>
      have fin : ∀ buf, ((body = none ∧ buf = []) ∨ (∃ b enc, body = some b ∧
          marshal b = .ok enc ∧ buf = enc ++ ['\n'])) → ∃ req0,
          http.NewRequest method u.String buf = .ok req0 ∧
          req = { req0 with Header := [("User-Agent".toList, [c.UserAgent])] } ∧
          err = none := by
        intro buf hbuf
        have h4 := s4 rel u buf hp hu hbuf
        rw [h4] at h
        cases hq : http.NewRequest method u.String buf with
        | error e => rw [hq] at h; cases h
        | ok req0 =>
          rw [hq] at h
          simp only [Outcome.returned.injEq, Prod.mk.injEq, Option.some.injEq] at h
          exact ⟨req0, rfl, h.1.symm, h.2.symm⟩
      cases hbody : body with
      | none =>
        obtain ⟨req0, q1, q2, q3⟩ := fin [] (Or.inl ⟨hbody, rfl⟩)
        exact ⟨rel, u, [], req0, rfl, hu, Or.inl ⟨rfl, rfl⟩, q1, q2, q3⟩
      | some b =>
        cases hm : marshal b with
        | error e => rw [s3 rel u b e hp hu hbody hm] at h; cases h
        | ok enc =>
          obtain ⟨req0, q1, q2, q3⟩ := fin (enc ++ ['\n']) (Or.inr ⟨b, enc, hbody, hm, rfl⟩)
          exact ⟨rel, u, enc ++ ['\n'], req0, rfl, hu, Or.inr ⟨b, enc, rfl, hm, rfl⟩,
            q1, q2, q3⟩

/-! ## The example of the specification, step by step -/

theorem example_parse : url.Parse "clients.json".toList = .ok { Path := "clients.json".toList } :=
  rfl

theorem example_resolve :
    url.ResolveReference exampleClient.BaseURL { Path := "clients.json".toList } =
      some exampleURL := rfl

theorem example_string :
    exampleURL.String = "https://api.example.com/api/v3/clients.json".toList := rfl

theorem example_reparse :
    url.Parse "https://api.example.com/api/v3/clients.json".toList = .ok exampleURL := rfl

theorem example_http (method body : GoString) (hm : http.validMethod method = true) :
    http.NewRequest method exampleURL.String body =
      .ok { Method := method, URL := exampleURL, Header := [], Body := body,
            ContentLength := body.length, Host := "api.example.com".toList } := by
  have hne : method ≠ [] := by
    intro h
    rw [h] at hm
    exact absurd hm (by decide)
  unfold http.NewRequest
  rw [example_string, example_reparse]
  simp only [if_neg hne, hm, Bool.not_true, Bool.false_eq_true, if_false]
  rfl

/-- The request of the example: what `NewRequest` returns for the path
`clients.json`, a valid method and a body that is nil or can be encoded. -/
theorem example_request {β : Type} (marshal : β → Except Error GoString) (method : GoString)
    (hm : http.validMethod method = true) (body : Option β) (buf : GoString)
    (hbuf : (body = none ∧ buf = []) ∨ (∃ b enc, body = some b ∧ marshal b = .ok enc ∧
        buf = enc ++ ['\n'])) :
    exampleClient.NewRequest marshal method "clients.json".toList body =
      .returned (some (exampleRequest method buf), none) := by
  rw [(NewRequest_steps marshal exampleClient method "clients.json".toList body).2.2.2
    _ exampleURL buf example_parse example_resolve hbuf, example_http method buf hm]
  rfl

/-! ## `Client.NewRequest`: header, payload and errors -/

/-- C8: a request that `NewRequest` has built has the header `User-Agent`, and
no other, with exactly one value, the `UserAgent` field of the client; for a
client that `NewClient` returned that value is `createsend-go/0.0.1`. -/
theorem NewRequest_user_agent {β : Type} (marshal : β → Except Error GoString) (c : Client)
    (method p : GoString) (body : Option β) (req : http.Request) (err : Option Error)
    (h : c.NewRequest marshal method p body = .returned (some req, err)) :
    req.Header.Values "User-Agent".toList = [c.UserAgent] ∧
      req.Header = [("User-Agent".toList, [c.UserAgent])] ∧
      ∀ (DefaultClient : http.Client) (httpClient : Option http.Client),
        (NewClient DefaultClient httpClient).UserAgent = "createsend-go/0.0.1".toList := by
  obtain ⟨rel, u, buf, req0, _, _, _, _, hreq, _⟩ :=
    NewRequest_built marshal c method p body req err h
  subst hreq
  refine ⟨?_, rfl, fun _ _ => rfl⟩
  simp [http.Header.Values]

/-- C8, an instance: the request of the example carries the user agent of the
example client once. -/
theorem NewRequest_user_agent_witness :
    exampleClient.NewRequest json.Marshal "GET".toList "clients.json".toList none =
        .returned (some (exampleRequest "GET".toList []), none) ∧
      (exampleRequest "GET".toList []).Header.Values "User-Agent".toList =
        ["createsend-go/0.0.1".toList] :=
  ⟨example_request json.Marshal "GET".toList (by decide) none [] (Or.inl ⟨rfl, rfl⟩),
    (NewRequest_user_agent json.Marshal exampleClient "GET".toList "clients.json".toList none
      (exampleRequest "GET".toList []) none
      (example_request json.Marshal "GET".toList (by decide) none [] (Or.inl ⟨rfl, rfl⟩))).1⟩

/-- C3, as stated, fails: the payload of the request built for the body `true`
is the four bytes of its JSON encoding and a newline byte, five bytes. -/
theorem NewRequest_payload_counterexample :
    json.Marshal (.bool true) = .ok "true".toList ∧
      exampleClient.NewRequest json.Marshal "POST".toList "clients.json".toList
          (some (json.Value.bool true)) =
        .returned (some (exampleRequest "POST".toList "true\n".toList), none) ∧
      (exampleRequest "POST".toList "true\n".toList).Body ≠ "true".toList :=
  ⟨rfl,
    example_request json.Marshal "POST".toList (by decide) (some (.bool true)) "true\n".toList
      (Or.inr ⟨.bool true, "true".toList, rfl, rfl, rfl⟩),
    by decide⟩

/-- C3, amended: the payload of a request that `NewRequest` has built for a
body `b` is the JSON encoding of `b` followed by one newline byte, and the
payload of a request built for the nil body is empty. -/
theorem NewRequest_payload {β : Type} (marshal : β → Except Error GoString) (c : Client)
    (method p : GoString) (body : Option β) (req : http.Request) (err : Option Error)
    (h : c.NewRequest marshal method p body = .returned (some req, err)) :
    (∀ b, body = some b → ∃ enc, marshal b = .ok enc ∧ req.Body = enc ++ ['\n'] ∧
      req.ContentLength = enc.length + 1) ∧
    (body = none → req.Body = [] ∧ req.ContentLength = 0) := by
  obtain ⟨rel, u, buf, req0, _, _, hbuf, hq, hreq, _⟩ :=
    NewRequest_built marshal c method p body req err h
  obtain ⟨u2, _, _, hreq0⟩ := http_NewRequest_ok _ _ _ _ hq
  subst hreq0
  subst hreq
  constructor
  · intro b hb
    rcases hbuf with ⟨hn, _⟩ | ⟨b2, enc, hb2, hm, hbuf⟩
    · rw [hn] at hb; cases hb
    · rw [hb2] at hb
      cases hb
      exact ⟨enc, hm, hbuf, by simp [hbuf]⟩
  · intro hn
    rcases hbuf with ⟨_, hbuf⟩ | ⟨b2, enc, hb2, _, _⟩
    · simp [hbuf]
    · rw [hb2] at hn; cases hn

/-- C3 amended, an instance: the body `[1,null]` is sent with a newline after it. -/
theorem NewRequest_payload_witness :
    exampleClient.NewRequest json.Marshal "POST".toList "clients.json".toList
        (some (json.Value.array [.int 1, .null])) =
      .returned (some (exampleRequest "POST".toList "[1,null]\n".toList), none) ∧
    ∃ enc, json.Marshal (.array [.int 1, .null]) = .ok enc ∧
      (exampleRequest "POST".toList "[1,null]\n".toList).Body = enc ++ ['\n'] ∧
      (exampleRequest "POST".toList "[1,null]\n".toList).ContentLength = enc.length + 1 :=
  ⟨example_request json.Marshal "POST".toList (by decide) (some (.array [.int 1, .null]))
      "[1,null]\n".toList (Or.inr ⟨.array [.int 1, .null], "[1,null]".toList, rfl, rfl, rfl⟩),
    (NewRequest_payload json.Marshal exampleClient "POST".toList "clients.json".toList
      (some (.array [.int 1, .null])) (exampleRequest "POST".toList "[1,null]\n".toList) none
      (example_request json.Marshal "POST".toList (by decide) (some (.array [.int 1, .null]))
        "[1,null]\n".toList
        (Or.inr ⟨.array [.int 1, .null], "[1,null]".toList, rfl, rfl, rfl⟩))).1 _ rfl⟩

theorem NewClient_BaseURL (DefaultClient : http.Client) (httpClient : Option http.Client) :
    (NewClient DefaultClient httpClient).BaseURL = some defaultBase := rfl

end createsend
